import Mathlib

/-!
Verification of the content-evaluation and rubric-aggregation core of a
free-text grading server (Node.js). The JavaScript sources are embedded
shallowly: pure functions become Lean functions, JavaScript numbers become
`ℤ`/`ℚ` with explicit rounding (`round x = ⌊x + 1/2⌋` matches
`Math.round`), fallible code returns `Except`, and external collaborators
(the `string-similarity` npm library, the `compromise` NLP library,
JavaScript `RegExp` compilation, and the embeddings micro-service reached
over HTTP) are abstracted as function-valued parameters, since their code
is not part of the repository. Unicode-dependent steps of the normalizer
(`toLowerCase`, NFKD decomposition, diacritic stripping, the `\p{L}`/`\p{N}`
classes) are modelled on the ASCII fragment, on which they agree with the
JavaScript runtime; every property proved below is insensitive to the
behaviour of these steps outside that fragment, and every concrete witness
is ASCII.
-/

namespace Grader

/-- Decidable equality for `Except` results, so that concrete runs can be
checked by `decide`. -/
instance {ε α : Type} [DecidableEq ε] [DecidableEq α] : DecidableEq (Except ε α) := fun
  | .error e, .error f =>
    if h : e = f then .isTrue (by rw [h])
    else .isFalse (fun hh => h (by cases hh; rfl))
  | .error _, .ok _ => .isFalse (fun hh => Except.noConfusion hh)
  | .ok _, .error _ => .isFalse (fun hh => Except.noConfusion hh)
  | .ok a, .ok b =>
    if h : a = b then .isTrue (by rw [h])
    else .isFalse (fun hh => h (by cases hh; rfl))

/-- Whether `needle` is a leading run of `hay` (character lists). -/
def leadMatch : List Char → List Char → Bool
  | [], _ => true
  | _ :: _, [] => false
  | a :: as, b :: bs => a = b && leadMatch as bs

/-- Whether `needle` occurs contiguously inside `hay` (character lists). -/
def occursInL (needle : List Char) : List Char → Bool
  | [] => leadMatch needle []
  | b :: bs => leadMatch needle (b :: bs) || occursInL needle bs

/-- JavaScript `hay.includes(needle)`: substring containment. -/
def occursIn (hay needle : String) : Bool :=
  occursInL needle.data hay.data

/-- JavaScript `toLowerCase`, modelled on the ASCII range (Lean's
`Char.toLower` lowers exactly the ASCII uppercase letters). -/
def jsLower (s : String) : String :=
  String.mk (s.data.map Char.toLower)

/-- One character of `norm`'s replacement step: the source regex
`[^\p{L}\p{N}\s'-]` replaced by a space keeps letters, digits, whitespace,
the apostrophe and the hyphen, and turns everything else into a space
(letter/digit classes modelled on ASCII). -/
def keepChar (c : Char) : Char :=
  if c.isAlpha || c.isDigit || c.isWhitespace || c = '\'' || c = '-' then c else ' '

/-- The maximal non-whitespace chunks of the normalized character stream.
`norm`'s final two steps (`replace(/\s+/g, " ")` then `trim`) leave exactly
these chunks joined by single spaces. -/
def normWords (s : String) : List (List Char) :=
  (((s.data.map Char.toLower).map keepChar).splitOnP Char.isWhitespace).filter
    (fun w => w ≠ [])

/-- Source `norm`: lower-case, NFKD-decompose and strip diacritics (identity
on the ASCII fragment modelled here), replace every character outside
letter/digit/whitespace/apostrophe/hyphen by a space, collapse whitespace
runs to single spaces and trim. -/
def norm (s : String) : String :=
  String.mk (List.intercalate [' '] (normWords s))

/-- Source `tokens`: `norm(s).split(" ").filter(Boolean)`. Since `norm`
joins its chunks with single spaces, these are exactly the chunks. -/
def tokens (s : String) : List String :=
  (normWords s).map String.mk

/-- JavaScript `Math.round(a / b)` for integers with `0 < b`, computed with
integer floor division so that the kernel can evaluate it:
`round(a/b) = ⌊(2a+b)/(2b)⌋`, and `Int` division is euclidean division,
which is floor division for a positive divisor. -/
def jsRoundDiv (a b : ℤ) : ℤ :=
  (2 * a + b) / (2 * b)

/-- `jsRoundDiv` agrees with Mathlib's `round` (which is `Math.round`:
half-up) on every ratio with positive denominator. -/
theorem jsRoundDiv_eq (a b : ℤ) (hb : 0 < b) :
    jsRoundDiv a b = round ((a : ℚ) / (b : ℚ)) := by
  have hbn : ((2 * b).toNat : ℤ) = 2 * b := Int.toNat_of_nonneg (by omega)
  have hb0 : (b : ℚ) ≠ 0 := by exact_mod_cast hb.ne.symm
  have key : ((a : ℚ) / b + 1 / 2) = ((2 * a + b : ℤ) : ℚ) / (((2 * b).toNat : ℕ) : ℚ) := by
    have h1 : (((2 * b).toNat : ℕ) : ℚ) = ((2 * b : ℤ) : ℚ) := by exact_mod_cast hbn
    rw [h1]
    push_cast
    field_simp
    ring
  rw [round_eq, jsRoundDiv, key, Rat.floor_intCast_div_natCast, hbn]

/-- `jsRoundDiv` is monotone in the numerator (fixed positive denominator). -/
theorem jsRoundDiv_mono (a c b : ℤ) (hb : 0 < b) (h : a ≤ c) :
    jsRoundDiv a b ≤ jsRoundDiv c b := by
  unfold jsRoundDiv
  exact Int.ediv_le_ediv (by omega) (by omega)

/-- JavaScript `Math.round(x * 100)` for a rational `x`, computed on the
numerator/denominator pair so that the kernel can evaluate it. -/
def jsRound100 (x : ℚ) : ℤ :=
  jsRoundDiv (100 * x.num) (x.den : ℤ)

/-- `jsRound100` agrees with `round (x * 100)`. -/
theorem jsRound100_eq (x : ℚ) : jsRound100 x = round (x * 100) := by
  have hd : (0 : ℤ) < (x.den : ℤ) := by exact_mod_cast x.pos
  rw [jsRound100, jsRoundDiv_eq _ _ hd]
  congr 1
  push_cast
  rw [mul_comm (x : ℚ) 100, mul_div_assoc]
  congr 1
  exact_mod_cast Rat.num_div_den x

/-- Result record of `countKeywords`; `pct` is `none` where the source
returns `null` (empty keyword list). -/
structure KwCount where
  found : ℕ
  total : ℕ
  pct : Option ℤ
  deriving DecidableEq, Repr

/-- Source `countKeywords`: count the non-empty keywords whose normalized
form occurs as a substring of the normalized text; `total` is the raw list
length, `pct = round(found/total × 100)` or `null` when the list is empty. -/
def countKeywords (text : String) (list : List String) : KwCount :=
  let base := norm text
  let found := (list.filter (fun k => k ≠ "" && occursIn base (norm k))).length
  { found := found
    total := list.length
    pct := if list.length = 0 then none
           else some (jsRoundDiv (found * 100) list.length) }

/-- Source `similarity100`: `0` when either input is empty (falsy), else
`Math.round(compareTwoStrings(norm a, norm b) × 100)`. The npm
`string-similarity` comparison is the abstract parameter `cmp`. -/
def similarity100 (cmp : String → String → ℚ) (a b : String) : ℤ :=
  if a = "" || b = "" then 0 else jsRound100 (cmp (norm a) (norm b))

/-- The French auxiliary-verb and verb-ending fragments scanned by
`hasVerb`, copied from the source list (outer fragments carry their exact
spacing). -/
def frHints : List String :=
  [" ai ", " as ", " a ", " avons ", " avez ", " ont ",
   " suis ", " es ", " est ", " sommes ", " êtes ", " sont ",
   "er ", "ez ", "e ", "ons ", "ent ", "ait ", "ais ", "aient "]

/-- Source `hasVerb`: defer to the NLP collaborator (`compromise`,
abstracted as `nlpVerbs`); for French additionally scan
`" " ++ text.toLowerCase() ++ " "` for the hint fragments; other languages
detect nothing on their own. -/
def hasVerb (nlpVerbs : String → Bool) (text : String) (lang : String) : Bool :=
  if nlpVerbs text then true
  else if lang = "fr" then
    let lower := " " ++ jsLower text ++ " "
    frHints.any (fun h => occursIn lower h)
  else false

/-- The per-rule weight map of `evaluateAnswer`'s configuration (§3 of the
spec declares weights non-negative; an absent field is `weights.x || 0`,
modelled by the caller supplying `0`). -/
structure Weights where
  similarity : ℕ
  all : ℕ
  any : ℕ
  regex : ℕ
  length : ℕ
  verb : ℕ
  penaltyBanned : ℕ
  deriving DecidableEq, Repr

/-- The default weight object of the source's destructuring. -/
def defaultWeights : Weights :=
  { similarity := 60, all := 25, any := 15, regex := 20,
    length := 10, verb := 10, penaltyBanned := 30 }

/-- The `{all, any, banned}` keyword sets; an absent set behaves as the
empty list (both are falsy for the source's `?.length` guards). -/
structure Keywords where
  all : List String
  any : List String
  banned : List String
  deriving DecidableEq, Repr

/-- One entry of `config.regex`: either a string pattern (compiled with the
`"i"` flag, which can throw on a malformed pattern) or an already-built
`RegExp` object carrying its test function. -/
inductive RegexEntry where
  | pat (source : String)
  | obj (test : String → Bool)

/-- `evaluateAnswer`'s configuration with the source's destructuring
defaults baked into `emptyCfg`; `expectedAnswer = none` models an absent
field. -/
structure EvalCfg where
  expectedAnswer : Option String
  similarityThreshold : ℤ
  keywords : Keywords
  anyAtLeast : ℕ
  regex : List RegexEntry
  minWords : ℕ
  maxWords : ℕ
  requireVerb : Bool
  weights : Weights

/-- The configuration produced by `evaluateAnswer(text)` or
`evaluateAnswer(text, {})`: every destructured field takes its default. -/
def emptyCfg : EvalCfg :=
  { expectedAnswer := none, similarityThreshold := 70,
    keywords := { all := [], any := [], banned := [] }, anyAtLeast := 1,
    regex := [], minWords := 0, maxWords := 0, requireVerb := false,
    weights := defaultWeights }

/-- The external collaborators of the content engine: the
`string-similarity` comparison (a rational in place of the float the
library returns), the `compromise` verb detector, and JavaScript `RegExp`
compilation (which fails on a malformed pattern). -/
structure Collab where
  cmp : String → String → ℚ
  nlpVerbs : String → Bool
  compile : String → Except Unit (String → Bool)

/-- JavaScript truthiness of an optional string: `undefined` and `""` are
falsy. -/
def truthyStr : Option String → Bool
  | none => false
  | some s => s ≠ ""

/-- One audit record of `reasons`; each constructor carries exactly the
fields the source pushes for that rule. `keywordsBanned`'s `penalty` is
`none` where the source pushes an object without a `penalty` key
(`found = 0` branch). -/
inductive Reason where
  | similarity (value : ℤ) (weight : ℕ) (points : ℤ) (threshold : ℤ)
  | keywordsAll (found total : ℕ) (pct : Option ℤ) (weight : ℕ) (points : ℤ)
  | keywordsAny (found total : ℕ) (required : ℕ) (weight : ℕ) (points : ℤ)
  | keywordsBanned (found : ℕ) (penalty : Option ℤ)
  | regexRule (ok : Bool) (weight : ℕ) (points : ℤ)
  | lengthRule (wordCount minWords maxWords : ℕ) (weight : ℕ) (points : ℤ)
  | verbRule (verbFound : Bool) (weight : ℕ) (points : ℤ)
  deriving DecidableEq, Repr

/-- The running accumulator of `evaluateAnswer`: the `reasons` array and
the `points`/`maxPoints` totals. -/
structure EvalState where
  reasons : List Reason
  points : ℤ
  maxPoints : ℕ
  deriving DecidableEq, Repr

/-- The accumulator before any rule has run. -/
def initState : EvalState := { reasons := [], points := 0, maxPoints := 0 }

/-- Rule 1 (similarity), active when `expectedAnswer` is truthy:
`pts = round(sim/100 × weight.similarity)`, weight joins the denominator. -/
def step1Similarity (C : Collab) (userText : String) (cfg : EvalCfg)
    (st : EvalState) : EvalState :=
  if truthyStr cfg.expectedAnswer then
    let sim := similarity100 C.cmp userText (cfg.expectedAnswer.getD "")
    let w := cfg.weights.similarity
    let pts := jsRoundDiv (sim * w) 100
    { reasons := st.reasons ++ [.similarity sim w pts cfg.similarityThreshold]
      points := st.points + pts
      maxPoints := st.maxPoints + w }
  else st

/-- Rule 2 (required keywords `all`), active when the list is non-empty:
`pts = round(found/total × weight.all)` (the source guards the ratio with
`total ? found/total : 0`). -/
def step2All (userText : String) (cfg : EvalCfg) (st : EvalState) : EvalState :=
  if cfg.keywords.all.length ≠ 0 then
    let r := countKeywords userText cfg.keywords.all
    let w := cfg.weights.all
    let pts := if r.total = 0 then 0 else jsRoundDiv (r.found * w) r.total
    { reasons := st.reasons ++ [.keywordsAll r.found r.total r.pct w pts]
      points := st.points + pts
      maxPoints := st.maxPoints + w }
  else st

/-- Rule 3 (optional keywords `any`), active when the list is non-empty:
binary award of `weight.any` when `found ≥ max(1, anyAtLeast)`. -/
def step3Any (userText : String) (cfg : EvalCfg) (st : EvalState) : EvalState :=
  if cfg.keywords.any.length ≠ 0 then
    let r := countKeywords userText cfg.keywords.any
    let ok : Bool := r.found ≥ max 1 cfg.anyAtLeast
    let w := cfg.weights.any
    let pts : ℤ := if ok then w else 0
    { reasons := st.reasons ++ [.keywordsAny r.found r.total cfg.anyAtLeast w pts]
      points := st.points + pts
      maxPoints := st.maxPoints + w }
  else st

/-- Rule 4 (banned keywords), active when the list is non-empty: when any
is found, subtract `min(points, weight.penaltyBanned)` and record the
penalty; otherwise record `found = 0` with no penalty field. Never touches
`maxPoints`. -/
def step4Banned (userText : String) (cfg : EvalCfg) (st : EvalState) : EvalState :=
  if cfg.keywords.banned.length ≠ 0 then
    let r := countKeywords userText cfg.keywords.banned
    if r.found > 0 then
      let pen := min st.points (cfg.weights.penaltyBanned : ℤ)
      { st with points := st.points - pen
                reasons := st.reasons ++ [.keywordsBanned r.found (some pen)] }
    else { st with reasons := st.reasons ++ [.keywordsBanned 0 none] }
  else st

/-- The source's `for` loop over `config.regex`: the first non-matching
pattern short-circuits with `ok = false`; a malformed string pattern that
is reached propagates the `RegExp` constructor's error. -/
def regexLoop (compile : String → Except Unit (String → Bool))
    (userText : String) : List RegexEntry → Except Unit Bool
  | [] => .ok true
  | .obj t :: rest =>
    if t userText then regexLoop compile userText rest else .ok false
  | .pat s :: rest =>
    match compile s with
    | .error e => .error e
    | .ok t => if t userText then regexLoop compile userText rest else .ok false

/-- Rule 5 (regex), active when at least one pattern is configured: binary
award of `weight.regex` when all patterns match the raw text. -/
def step5Regex (C : Collab) (userText : String) (cfg : EvalCfg)
    (st : EvalState) : Except Unit EvalState :=
  if cfg.regex.length ≠ 0 then
    match regexLoop C.compile userText cfg.regex with
    | .error e => .error e
    | .ok ok =>
      let w := cfg.weights.regex
      let pts : ℤ := if ok then w else 0
      .ok { reasons := st.reasons ++ [.regexRule ok w pts]
            points := st.points + pts
            maxPoints := st.maxPoints + w }
  else .ok st

/-- Rule 6 (length bounds), active when `minWords` or `maxWords` is
non-zero (truthy): binary award when the word count lies in the configured
bounds, a zero bound being unbounded. -/
def step6Length (userText : String) (cfg : EvalCfg) (st : EvalState) : EvalState :=
  if cfg.minWords ≠ 0 || cfg.maxWords ≠ 0 then
    let wordCount := (tokens userText).length
    let okMin : Bool := if cfg.minWords ≠ 0 then wordCount ≥ cfg.minWords else true
    let okMax : Bool := if cfg.maxWords ≠ 0 then wordCount ≤ cfg.maxWords else true
    let ok := okMin && okMax
    let w := cfg.weights.length
    let pts : ℤ := if ok then w else 0
    { reasons := st.reasons ++
        [.lengthRule wordCount cfg.minWords cfg.maxWords w pts]
      points := st.points + pts
      maxPoints := st.maxPoints + w }
  else st

/-- Rule 7 (verb requirement), active when `requireVerb` is true: binary
award on `hasVerb`. -/
def step7Verb (C : Collab) (userText : String) (cfg : EvalCfg) (lang : String)
    (st : EvalState) : EvalState :=
  if cfg.requireVerb then
    let hv := hasVerb C.nlpVerbs userText lang
    let w := cfg.weights.verb
    let pts : ℤ := if hv then w else 0
    { reasons := st.reasons ++ [.verbRule hv w pts]
      points := st.points + pts
      maxPoints := st.maxPoints + w }
  else st

/-- The source's final line:
`contentScore = maxPoints > 0 ? max(0, min(100, round(points/maxPoints × 100))) : 0`. -/
def contentScoreOf (st : EvalState) : ℤ :=
  if 0 < st.maxPoints then
    max 0 (min 100 (jsRoundDiv (st.points * 100) st.maxPoints))
  else 0

/-- Matches the `r.rule === "similarity"` test of the correctness block. -/
def Reason.isSimR : Reason → Bool
  | .similarity _ _ _ _ => true
  | _ => false

/-- Matches `r.rule === "keywords_all"`. -/
def Reason.isAllR : Reason → Bool
  | .keywordsAll _ _ _ _ _ => true
  | _ => false

/-- Matches `r.rule === "keywords_any"`. -/
def Reason.isAnyR : Reason → Bool
  | .keywordsAny _ _ _ _ _ => true
  | _ => false

/-- Matches `r.rule === "keywords_banned"`. -/
def Reason.isBannedR : Reason → Bool
  | .keywordsBanned _ _ => true
  | _ => false

/-- Matches `r.rule === "regex"`. -/
def Reason.isRegexR : Reason → Bool
  | .regexRule _ _ _ => true
  | _ => false

/-- The correctness block's `reasons.find(similarity)?.value ?? 0`. -/
def findSimValue (rs : List Reason) : ℤ :=
  match rs.find? Reason.isSimR with
  | some (.similarity v _ _ _) => v
  | _ => 0

/-- The source's correctness verdict: with a truthy `expectedAnswer`,
`sim ≥ threshold`; otherwise the conjunction of the per-rule checks, an
absent rule being vacuously satisfied. -/
def isCorrectOf (cfg : EvalCfg) (rs : List Reason) : Bool :=
  if truthyStr cfg.expectedAnswer then
    findSimValue rs ≥ cfg.similarityThreshold
  else
    let allOk := match rs.find? Reason.isAllR with
      | some (.keywordsAll f t _ _ _) => f = t
      | _ => true
    let anyOk := match rs.find? Reason.isAnyR with
      | some (.keywordsAny _ _ _ _ pts) => pts > 0
      | _ => true
    let bannedOk := match rs.find? Reason.isBannedR with
      | some (.keywordsBanned f _) => f = 0
      | _ => true
    let regexOk := match rs.find? Reason.isRegexR with
      | some (.regexRule _ _ pts) => pts > 0
      | _ => true
    allOk && anyOk && bannedOk && regexOk

/-- The running state after rules 1–3 (the `accumulatedPointsSoFar` the
banned rule's penalty is capped by). -/
def pre3 (C : Collab) (userText : String) (cfg : EvalCfg) : EvalState :=
  step3Any userText cfg (step2All userText cfg
    (step1Similarity C userText cfg initState))

/-- The running state after rules 1–4, the prefix of the pipeline before
the fallible regex step. -/
def pre4 (C : Collab) (userText : String) (cfg : EvalCfg) : EvalState :=
  step4Banned userText cfg (pre3 C userText cfg)

/-- The rule pipeline of `evaluateAnswer` in the source's order; only the
regex step can fail. -/
def evalState (C : Collab) (userText : String) (cfg : EvalCfg) (lang : String) :
    Except Unit EvalState :=
  match step5Regex C userText cfg (pre4 C userText cfg) with
  | .error e => .error e
  | .ok st => .ok (step7Verb C userText cfg lang (step6Length userText cfg st))

/-- The `{contentScore, isCorrect, reasons}` object `evaluateAnswer`
returns. -/
structure ContentEvalResult where
  contentScore : ℤ
  isCorrect : Bool
  reasons : List Reason
  deriving DecidableEq, Repr

/-- Source `evaluateAnswer`: run the seven rules in order and assemble the
result; a malformed reached regex pattern propagates as the only error. -/
def evaluateAnswer (C : Collab) (userText : String) (cfg : EvalCfg)
    (lang : String) : Except Unit ContentEvalResult :=
  match evalState C userText cfg lang with
  | .error e => .error e
  | .ok st => .ok { contentScore := contentScoreOf st
                    isCorrect := isCorrectOf cfg st.reasons
                    reasons := st.reasons }

/-- The token extraction of `lexisMetrics`:
`text.toLowerCase().match(/\p{L}+/gu) || []`, i.e. the maximal letter runs
of the lower-cased text (letter class modelled on ASCII). -/
def lexTokens (text : String) : List String :=
  ((((jsLower text).data).splitOnP (fun c => !c.isAlpha)).filter
    (fun w => w ≠ [])).map String.mk

/-- The keys of the source's `freq` object in insertion order: each distinct
token at its first occurrence (letter-only tokens are never integer-like
keys, so JavaScript preserves insertion order). -/
def distinctKeys (l : List String) : List String :=
  l.foldl (fun acc w => if w ∈ acc then acc else acc ++ [w]) []

/-- The `freq` count of one token. -/
def countOcc (l : List String) (w : String) : ℕ :=
  (l.filter (fun x => x = w)).length

/-- The record `lexisMetrics` returns; `ttr` carries the source's
`Number(ttr.toFixed(3))` (the raw ratio rounded to three decimals), while
`ttrScore` is computed from the raw ratio. -/
structure LexisMetrics where
  total : ℕ
  types : ℕ
  ttr : ℚ
  ttrScore : ℤ
  repeatedTop : List String
  lexisScore : ℤ
  deriving DecidableEq, Repr

/-- Source `lexisMetrics` (`lexis.js`): type-token ratio saturating at 0.5,
tokens occurring at least 4 times are repeated, `repeatedTop` keeps the
first five, penalty `min(40, repeatedTop.length × 10)`, and
`lexisScore = max(0, ttrScore - penalty)`. -/
def lexisMetrics (text : String) (lang : String) : LexisMetrics :=
  let toks := lexTokens text
  let total := toks.length
  let types := (distinctKeys toks).length
  let ttr : ℚ := if total = 0 then 0 else (types : ℚ) / (total : ℚ)
  let repeatedTop :=
    ((distinctKeys toks).filter (fun w => countOcc toks w ≥ 4)).take 5
  let ttrScore : ℤ := round (min 1 (ttr / (1 / 2 : ℚ)) * 100)
  let repetPenalty : ℤ := min 40 ((repeatedTop.length : ℤ) * 10)
  { total := total
    types := types
    ttr := ((round (ttr * 1000) : ℤ) : ℚ) / 1000
    ttrScore := ttrScore
    repeatedTop := repeatedTop
    lexisScore := max 0 (ttrScore - repetPenalty) }

/-- JavaScript `String.trim`. -/
def jsTrim (s : String) : String :=
  String.mk (((s.data.dropWhile Char.isWhitespace).reverse.dropWhile
    Char.isWhitespace).reverse)

/-- One step of the paragraph splitter: accumulate committed chunks, the
current chunk, and the length of the pending newline run. A run of two or
more newlines is the separator `\n{2,}`; a single newline stays inside the
chunk. -/
def paraStep (st : List (List Char) × List Char × ℕ) (c : Char) :
    List (List Char) × List Char × ℕ :=
  let (done, cur, run) := st
  if c = '\n' then (done, cur, run + 1)
  else if run ≥ 2 then (done ++ [cur], [c], 0)
  else (done, cur ++ List.replicate run '\n' ++ [c], 0)

/-- `t.split(/\n{2,}/).filter(Boolean)` as chunk lists (a trailing
newline run is dropped from the last chunk, which only its truthiness —
preserved — depends on). -/
def paraChunks (l : List Char) : List (List Char) :=
  let (done, cur, _) := l.foldl paraStep ([], [], 0)
  (done ++ [cur]).filter (fun w => w ≠ [])

/-- The per-language connector lists of `organizationMetrics` (`{fr, en}`,
any other language yields `[]`). -/
def connectors (lang : String) : List String :=
  if lang = "fr" then
    ["d'abord", "ensuite", "puis", "enfin", "cependant", "toutefois",
     "par conséquent", "de plus", "en revanche"]
  else if lang = "en" then
    ["first", "then", "next", "finally", "however", "nevertheless",
     "therefore", "moreover", "on the other hand"]
  else []

/-- The record `organizationMetrics` returns. -/
structure OrgMetrics where
  paragraphs : ℕ
  words : ℕ
  paraScore : ℤ
  connScore : ℤ
  deriving DecidableEq, Repr

/-- Source `organizationMetrics`: paragraph blocks split on two-or-more
newlines (`|| 1` floor), whitespace-separated word count, substring
connector matching on the lower-cased trimmed text,
`paraScore = min(100, round(paragraphs/3 × 100))`,
`connScore = min(100, found × 25)`. -/
def organizationMetrics (text : String) (lang : String) : OrgMetrics :=
  let t := jsTrim text
  let n := (paraChunks t.data).length
  let paragraphs := if n = 0 then 1 else n
  let words := ((t.data.splitOnP Char.isWhitespace).filter (fun w => w ≠ [])).length
  let lower := jsLower t
  let foundConn := ((connectors lang).filter (fun c => occursIn lower c)).length
  { paragraphs := paragraphs
    words := words
    paraScore := min 100 (jsRoundDiv ((paragraphs : ℤ) * 100) 3)
    connScore := min 100 ((foundConn : ℤ) * 25) }

/-- One LanguageTool match as `grammarSpellingScores` inspects it:
`rule.issueType` and `rule.id` (absent fields modelled as `""`, the
source's `|| ""`). -/
structure LtMatch where
  issueType : String
  ruleId : String
  deriving DecidableEq, Repr

/-- The source's classification of a match as a spelling error:
`/spelling|typographical/i` on the issue type or `/spelling/i` on the rule
id (case-insensitive substring tests). -/
def isSpellingMatch (m : LtMatch) : Bool :=
  occursIn (jsLower m.issueType) "spelling" ||
  occursIn (jsLower m.issueType) "typographical" ||
  occursIn (jsLower m.ruleId) "spelling"

/-- The per-error penalty weights read from the environment
(`GRAMMAR_PTS_PER_ERROR || 6`, `SPELLING_PTS_PER_ERROR || 5`). -/
structure ScoringEnv where
  grammarWeight : ℤ
  spellingWeight : ℤ
  deriving DecidableEq, Repr

/-- The environment defaults of `grammarSpellingScores`. -/
def defaultScoringEnv : ScoringEnv := { grammarWeight := 6, spellingWeight := 5 }

/-- The record `grammarSpellingScores` returns. -/
structure GrammarScores where
  grammarScore : ℤ
  spellingScore : ℤ
  grammarErr : ℕ
  spellingErr : ℕ
  deriving DecidableEq, Repr

/-- Source `grammarSpellingScores`: classify each match, then
`score = max(0, 100 - errors × weight)` per category. -/
def grammarSpellingScores (env : ScoringEnv) (ms : List LtMatch) :
    GrammarScores :=
  let spellingErr := (ms.filter isSpellingMatch).length
  let grammarErr := (ms.filter (fun m => !isSpellingMatch m)).length
  { grammarScore := max 0 (100 - (grammarErr : ℤ) * env.grammarWeight)
    spellingScore := max 0 (100 - (spellingErr : ℤ) * env.spellingWeight)
    grammarErr := grammarErr
    spellingErr := spellingErr }

/-- The observable outcome of the embeddings micro-service interaction in
`semanticSimilarity`: `EMB_BASE_URL` unset (the source returns the neutral
`0` before any request), the awaited `axios.post` rejecting (network error
or timeout — the source has no `try`/`catch` here, so the exception
propagates), or the request resolving with `data.vectors || []`. -/
inductive EmbOutcome where
  | notConfigured
  | raised
  | responded (vectors : List (List ℚ))

/-- The embeddings collaborator: the service interaction per input pair,
and the source's cosine-to-0..100 computation
(`Math.round(Math.max(0, Math.min(1, cos)) × 100)`) over the returned
float vectors, abstracted as a function since it is floating-point
numerics over external data. -/
structure EmbEnv where
  call : String → String → EmbOutcome
  cosine100 : List ℚ → List ℚ → ℤ

/-- Source `semanticSimilarity` (`semantic.js`): `0` when either text is
falsy or the service is not configured; otherwise post both texts; a
destructuring that finds fewer than two vectors yields `0`; a rejected
request propagates (no `try`/`catch` in this function). -/
def semanticSimilarity (E : EmbEnv) (userText expectedAnswer : String) :
    Except Unit ℤ :=
  if expectedAnswer = "" || userText = "" then .ok 0
  else
    match E.call userText expectedAnswer with
    | .notConfigured => .ok 0
    | .raised => .error ()
    | .responded vs =>
      match vs with
      | u :: e :: _ => .ok (E.cosine100 u e)
      | _ => .ok 0

/-- A rubric's weight map over the five pillars. -/
structure RubricWeights where
  content : ℚ
  organization : ℚ
  lexis : ℚ
  grammar : ℚ
  mechanics : ℚ
  deriving DecidableEq, Repr

/-- A named rubric as `rubricAggregate` consumes it. -/
structure Rubric where
  weights : RubricWeights
  deriving DecidableEq, Repr

/-- The per-pillar rounded sub-scores of a `RubricResult` (each already an
integer, so the source's `Math.round` is the identity on it). -/
structure Breakdown where
  content : ℤ
  organization : ℤ
  lexis : ℤ
  grammar : ℤ
  mechanics : ℤ
  deriving DecidableEq, Repr

/-- The raw metric objects reported for traceability. -/
structure RubricDetails where
  semantic : ℤ
  organization : OrgMetrics
  lexis : LexisMetrics
  deriving DecidableEq, Repr

/-- The `{overall, breakdown, details}` object of `rubricAggregate`. -/
structure RubricResult where
  overall : ℤ
  breakdown : Breakdown
  details : RubricDetails
  deriving DecidableEq, Repr

/-- Source `rubricAggregate` (`rubricScoring.js`): grammar/mechanics from
the LanguageTool matches, content from the awaited semantic similarity
(`sem || 0` is the identity on an integer `sem`; the pillar is `0` without
an expected answer), organization and lexis from the local metrics, then
the weighted sum `Σ pillar × weight/100`, rounded. An exception from the
awaited `semanticSimilarity` propagates out of the aggregation. -/
def rubricAggregate (env : ScoringEnv) (E : EmbEnv) (text lang : String)
    (ltMatches : List LtMatch) (expectedAnswer : String) (rubric : Rubric) :
    Except Unit RubricResult :=
  let w := rubric.weights
  let gs := grammarSpellingScores env ltMatches
  match semanticSimilarity E text expectedAnswer with
  | .error e => .error e
  | .ok sem =>
    let contentScore : ℤ := if expectedAnswer ≠ "" then sem else 0
    let org := organizationMetrics text lang
    let organizationScore : ℤ :=
      round ((org.paraScore : ℚ) * (1 / 2) + (org.connScore : ℚ) * (1 / 2))
    let lex := lexisMetrics text lang
    let lexisScore := lex.lexisScore
    let mechanicsScore := gs.spellingScore
    let final : ℚ :=
      (contentScore : ℚ) * (w.content / 100) +
      (organizationScore : ℚ) * (w.organization / 100) +
      (lexisScore : ℚ) * (w.lexis / 100) +
      (gs.grammarScore : ℚ) * (w.grammar / 100) +
      (mechanicsScore : ℚ) * (w.mechanics / 100)
    .ok { overall := round final
          breakdown := { content := contentScore
                         organization := organizationScore
                         lexis := lexisScore
                         grammar := gs.grammarScore
                         mechanics := mechanicsScore }
          details := { semantic := sem, organization := org, lexis := lex } }

/-- A run of the regex loop that ends in an error was stopped by a string
pattern whose compilation failed. -/
theorem regexLoop_error_source (compile : String → Except Unit (String → Bool))
    (u : String) (l : List RegexEntry) (e : Unit)
    (h : regexLoop compile u l = .error e) :
    ∃ s, RegexEntry.pat s ∈ l ∧ compile s = .error e := by
  induction l with
  | nil => simp [regexLoop] at h
  | cons hd rest ih =>
    cases hd with
    | obj t =>
      unfold regexLoop at h
      split at h
      · obtain ⟨s, hs, hc⟩ := ih h
        exact ⟨s, List.mem_cons_of_mem _ hs, hc⟩
      · cases h
    | pat s =>
      unfold regexLoop at h
      split at h
      · next e2 heq =>
        cases h
        exact ⟨s, List.mem_cons_self _ _, heq⟩
      · next f heq =>
        split at h
        · obtain ⟨s2, hs2, hc2⟩ := ih h
          exact ⟨s2, List.mem_cons_of_mem _ hs2, hc2⟩
        · cases h

/-- When every string pattern of the list compiles, the regex loop cannot
fail. -/
theorem regexLoop_total (compile : String → Except Unit (String → Bool))
    (u : String) (l : List RegexEntry)
    (hok : ∀ s, RegexEntry.pat s ∈ l → ∃ f, compile s = .ok f) :
    ∃ b, regexLoop compile u l = .ok b := by
  induction l with
  | nil => exact ⟨true, rfl⟩
  | cons hd rest ih =>
    have ih2 := ih (fun s hs => hok s (List.mem_cons_of_mem _ hs))
    cases hd with
    | obj t =>
      by_cases ht : t u = true
      · simpa [regexLoop, ht] using ih2
      · exact ⟨false, by simp [regexLoop, ht]⟩
    | pat s =>
      obtain ⟨f, hf⟩ := hok s (List.mem_cons_self _ _)
      by_cases ht : f u = true
      · simpa [regexLoop, hf, ht] using ih2
      · exact ⟨false, by simp [regexLoop, hf, ht]⟩

/-- When every string pattern compiles, the regex step returns a state. -/
theorem step5Regex_ok (C : Collab) (u : String) (cfg : EvalCfg) (st : EvalState)
    (hok : ∀ s, RegexEntry.pat s ∈ cfg.regex → ∃ f, C.compile s = .ok f) :
    ∃ st2, step5Regex C u cfg st = .ok st2 := by
  obtain ⟨b, hb⟩ := regexLoop_total C.compile u cfg.regex hok
  unfold step5Regex
  split
  · rw [hb]
    exact ⟨_, rfl⟩
  · exact ⟨st, rfl⟩

/-- A failing regex step is a failing regex loop. -/
theorem step5Regex_error (C : Collab) (u : String) (cfg : EvalCfg)
    (st : EvalState) (e : Unit) (h : step5Regex C u cfg st = .error e) :
    regexLoop C.compile u cfg.regex = .error e := by
  unfold step5Regex at h
  split at h
  · split at h
    · next e2 heq =>
      cases h
      exact heq
    · cases h
  · cases h

/-- The regex step only appends to the reasons list. -/
theorem step5Regex_reasons (C : Collab) (u : String) (cfg : EvalCfg)
    (st st2 : EvalState) (h : step5Regex C u cfg st = .ok st2) :
    ∃ l, st2.reasons = st.reasons ++ l := by
  unfold step5Regex at h
  split at h
  · split at h
    · cases h
    · cases h
      exact ⟨_, rfl⟩
  · cases h
    exact ⟨[], (List.append_nil _).symm⟩

/-- The length step only appends to the reasons list. -/
theorem step6Length_reasons (u : String) (cfg : EvalCfg) (st : EvalState) :
    ∃ l, (step6Length u cfg st).reasons = st.reasons ++ l := by
  unfold step6Length
  split
  · exact ⟨_, rfl⟩
  · exact ⟨[], (List.append_nil _).symm⟩

/-- The verb step only appends to the reasons list. -/
theorem step7Verb_reasons (C : Collab) (u : String) (cfg : EvalCfg)
    (lang : String) (st : EvalState) :
    ∃ l, (step7Verb C u cfg lang st).reasons = st.reasons ++ l := by
  unfold step7Verb
  split
  · exact ⟨_, rfl⟩
  · exact ⟨[], (List.append_nil _).symm⟩

/-- What the active banned rule does to the state: it appends exactly one
reason (penalty recorded only when something was found) and applies the
capped penalty to the points. -/
theorem step4Banned_run (u : String) (cfg : EvalCfg) (st : EvalState)
    (hb : cfg.keywords.banned.length ≠ 0) :
    (step4Banned u cfg st).reasons = st.reasons ++
      [if 0 < (countKeywords u cfg.keywords.banned).found then
          Reason.keywordsBanned (countKeywords u cfg.keywords.banned).found
            (some (min st.points (cfg.weights.penaltyBanned : ℤ)))
        else Reason.keywordsBanned 0 none] ∧
    (step4Banned u cfg st).points = st.points -
      (if 0 < (countKeywords u cfg.keywords.banned).found then
        min st.points (cfg.weights.penaltyBanned : ℤ) else 0) := by
  unfold step4Banned
  rw [if_pos hb]
  by_cases hf : 0 < (countKeywords u cfg.keywords.banned).found
  · rw [if_pos hf, if_pos hf, if_pos hf]
    exact ⟨rfl, rfl⟩
  · rw [if_neg hf, if_neg hf, if_neg hf]
    refine ⟨rfl, ?_⟩
    show st.points = st.points - 0
    omega

/-- Inverting a successful `evaluateAnswer`: the regex step succeeded on
the rule 1–4 prefix and the result's reasons extend the banned step's. -/
theorem evaluateAnswer_ok_inv (C : Collab) (u : String) (cfg : EvalCfg)
    (lang : String) (res : ContentEvalResult)
    (h : evaluateAnswer C u cfg lang = .ok res) :
    ∃ st5 l, step5Regex C u cfg (pre4 C u cfg) = .ok st5 ∧
      res.reasons = (pre4 C u cfg).reasons ++ l := by
  unfold evaluateAnswer at h
  cases hes : evalState C u cfg lang with
  | error e =>
    rw [hes] at h
    cases h
  | ok st =>
    rw [hes] at h
    cases h
    unfold evalState at hes
    cases h5 : step5Regex C u cfg (pre4 C u cfg) with
    | error e =>
      rw [h5] at hes
      cases hes
    | ok st5 =>
      rw [h5] at hes
      cases hes
      obtain ⟨l5, hl5⟩ := step5Regex_reasons C u cfg _ st5 h5
      obtain ⟨l6, hl6⟩ := step6Length_reasons u cfg st5
      obtain ⟨l7, hl7⟩ := step7Verb_reasons C u cfg lang (step6Length u cfg st5)
      refine ⟨st5, l5 ++ (l6 ++ l7), rfl, ?_⟩
      show (step7Verb C u cfg lang (step6Length u cfg st5)).reasons = _
      rw [hl7, hl6, hl5]
      simp [List.append_assoc]

/-- A concrete collaborator bundle for witnesses: similarity 0, no verbs,
every pattern compiles to a match-all test. -/
def collabW : Collab :=
  { cmp := fun _ _ => 0, nlpVerbs := fun _ => false,
    compile := fun _ => .ok (fun _ => true) }

/-- A collaborator bundle whose regex compilation always fails (every
string pattern malformed). -/
def collabBad : Collab :=
  { cmp := fun _ _ => 0, nlpVerbs := fun _ => false,
    compile := fun _ => .error () }

/-- A configuration whose only active rule is the banned list
`["cat"]`. -/
def cfgBanW : EvalCfg :=
  { emptyCfg with keywords := { all := [], any := [], banned := ["cat"] } }

/-- A configuration whose only active rule is the banned list
`["zebra"]`. -/
def cfgBanZ : EvalCfg :=
  { emptyCfg with keywords := { all := [], any := [], banned := ["zebra"] } }

/-- C3 counterexample: with banned list `["zebra"]` and the text
`"the cat sat"` (zero banned keywords found), the appended banned-keywords
reason carries no penalty field at all (`none`), not a penalty recorded as
zero (`some 0`). -/
theorem claim3_counterexample :
    evaluateAnswer collabW "the cat sat" cfgBanZ "en" =
      .ok { contentScore := 0, isCorrect := true,
            reasons := [Reason.keywordsBanned 0 none] } ∧
    Reason.keywordsBanned 0 none ≠ Reason.keywordsBanned 0 (some 0) := by
  exact ⟨by decide, by decide⟩

/-- C3 amended: for every text and configuration with a non-empty banned
list, the result's reasons contain a banned-keywords reason recording the
found count; when `found > 0` its penalty field records exactly
`min(accumulatedPointsSoFar, weights.penaltyBanned)`, and when `found = 0`
the penalty field is omitted (`none`) rather than recorded as zero. -/
theorem claim3_banned_reason (C : Collab) (userText : String) (cfg : EvalCfg)
    (lang : String) (res : ContentEvalResult)
    (hb : cfg.keywords.banned.length ≠ 0)
    (h : evaluateAnswer C userText cfg lang = .ok res) :
    ∃ p, Reason.keywordsBanned
        (countKeywords userText cfg.keywords.banned).found p ∈ res.reasons ∧
      ((countKeywords userText cfg.keywords.banned).found = 0 → p = none) ∧
      (0 < (countKeywords userText cfg.keywords.banned).found →
        p = some (min (pre3 C userText cfg).points
          (cfg.weights.penaltyBanned : ℤ))) := by
  obtain ⟨st5, l, h5, hres⟩ := evaluateAnswer_ok_inv C userText cfg lang res h
  obtain ⟨h4r, _⟩ := step4Banned_run userText cfg (pre3 C userText cfg) hb
  have h4r2 : (pre4 C userText cfg).reasons = (pre3 C userText cfg).reasons ++
      [if 0 < (countKeywords userText cfg.keywords.banned).found then
          Reason.keywordsBanned (countKeywords userText cfg.keywords.banned).found
            (some (min (pre3 C userText cfg).points (cfg.weights.penaltyBanned : ℤ)))
        else Reason.keywordsBanned 0 none] := h4r
  by_cases hf : 0 < (countKeywords userText cfg.keywords.banned).found
  · refine ⟨some (min (pre3 C userText cfg).points (cfg.weights.penaltyBanned : ℤ)),
      ?_, ?_, fun _ => rfl⟩
    · rw [hres, h4r2, if_pos hf]
      simp
    · intro h0
      omega
  · have hf0 : (countKeywords userText cfg.keywords.banned).found = 0 := by omega
    refine ⟨none, ?_, fun _ => rfl, fun hlt => absurd hlt hf⟩
    rw [hres, h4r2, if_neg hf, hf0]
    simp

/-- C3 witness: the amended statement holds at the concrete banned
configuration `["cat"]` on `"the cat sat"` (one banned keyword found). -/
theorem claim3_banned_reason_witness :
    ∃ p, Reason.keywordsBanned
        (countKeywords "the cat sat" cfgBanW.keywords.banned).found p ∈
          (ContentEvalResult.mk 0 false [Reason.keywordsBanned 1 (some 0)]).reasons ∧
      ((countKeywords "the cat sat" cfgBanW.keywords.banned).found = 0 → p = none) ∧
      (0 < (countKeywords "the cat sat" cfgBanW.keywords.banned).found →
        p = some (min (pre3 collabW "the cat sat" cfgBanW).points
          (cfgBanW.weights.penaltyBanned : ℤ))) :=
  claim3_banned_reason collabW "the cat sat" cfgBanW "en"
    (ContentEvalResult.mk 0 false [Reason.keywordsBanned 1 (some 0)])
    (by decide) (by decide)

/-- C4: `evaluateAnswer` raises nothing for malformed or absent
configuration fields: when every string regex pattern compiles the result
is `.ok`, and any propagated error traces back to a malformed pattern of
`config.regex` (the only error source). -/
theorem claim4_only_regex_errors (C : Collab) (userText : String)
    (cfg : EvalCfg) (lang : String) :
    ((∀ s, RegexEntry.pat s ∈ cfg.regex → ∃ f, C.compile s = .ok f) →
      ∃ res, evaluateAnswer C userText cfg lang = .ok res) ∧
    (∀ e, evaluateAnswer C userText cfg lang = .error e →
      ∃ s, RegexEntry.pat s ∈ cfg.regex ∧ C.compile s = .error e) := by
  constructor
  · intro hok
    obtain ⟨st5, h5⟩ := step5Regex_ok C userText cfg (pre4 C userText cfg) hok
    have hes : evalState C userText cfg lang =
        .ok (step7Verb C userText cfg lang (step6Length userText cfg st5)) := by
      unfold evalState
      rw [h5]
    have key : evaluateAnswer C userText cfg lang = .ok
        { contentScore := contentScoreOf
            (step7Verb C userText cfg lang (step6Length userText cfg st5)),
          isCorrect := isCorrectOf cfg
            (step7Verb C userText cfg lang (step6Length userText cfg st5)).reasons,
          reasons :=
            (step7Verb C userText cfg lang (step6Length userText cfg st5)).reasons } := by
      unfold evaluateAnswer
      rw [hes]
    exact ⟨_, key⟩
  · intro e he
    unfold evaluateAnswer at he
    cases hes : evalState C userText cfg lang with
    | ok st =>
      rw [hes] at he
      cases he
    | error e2 =>
      rw [hes] at he
      cases he
      unfold evalState at hes
      cases h5 : step5Regex C userText cfg (pre4 C userText cfg) with
      | ok st5 =>
        rw [h5] at hes
        cases hes
      | error e3 =>
        rw [h5] at hes
        cases hes
        exact regexLoop_error_source C.compile userText cfg.regex e
          (step5Regex_error C userText cfg _ e h5)

/-- C5: when the banned rule is active and finds at least one banned
keyword, the fourth pipeline step subtracts exactly
`min(accumulatedPointsSoFar, weights.penaltyBanned)` from the running
points, and the subtraction cannot leave the running points negative. -/
theorem claim5_banned_penalty (userText : String) (cfg : EvalCfg)
    (st : EvalState)
    (hb : cfg.keywords.banned.length ≠ 0)
    (hf : 0 < (countKeywords userText cfg.keywords.banned).found) :
    (step4Banned userText cfg st).points =
      st.points - min st.points (cfg.weights.penaltyBanned : ℤ) ∧
    0 ≤ st.points - min st.points (cfg.weights.penaltyBanned : ℤ) := by
  constructor
  · unfold step4Banned
    rw [if_pos hb, if_pos hf]
  · exact sub_nonneg.mpr (min_le_left _ _)

/-- C5 witness: the penalty subtraction at the banned configuration
`["cat"]`, the text `"the cat sat"` and a running state with 13 points. -/
theorem claim5_banned_penalty_witness :
    (step4Banned "the cat sat" cfgBanW (EvalState.mk [] 13 25)).points =
      (EvalState.mk [] 13 25).points -
        min (EvalState.mk [] 13 25).points (cfgBanW.weights.penaltyBanned : ℤ) ∧
    0 ≤ (EvalState.mk [] 13 25).points -
      min (EvalState.mk [] 13 25).points (cfgBanW.weights.penaltyBanned : ℤ) :=
  claim5_banned_penalty "the cat sat" cfgBanW (EvalState.mk [] 13 25)
    (by decide) (by decide)

/-- The embeddings collaborator standing for an unconfigured service
(`EMB_BASE_URL` unset). -/
def embNotConfigured : EmbEnv :=
  { call := fun _ _ => .notConfigured, cosine100 := fun _ _ => 0 }

/-- The embeddings collaborator standing for a configured service whose
request rejects (network error or timeout). -/
def embRaised : EmbEnv :=
  { call := fun _ _ => .raised, cosine100 := fun _ _ => 0 }

/-- A concrete rubric weight map for witnesses. -/
def rubricStd : Rubric :=
  { weights := { content := 40, organization := 15, lexis := 15,
                 grammar := 20, mechanics := 10 } }

/-- C1 counterexample: with a configured embeddings service whose request
fails (network error or timeout), `rubricAggregate` propagates the
exception instead of returning a `RubricResult` with the content pillar
degraded to 0 — the claim fails on this input. -/
theorem claim1_counterexample :
    rubricAggregate defaultScoringEnv embRaised "hello" "en" [] "expected"
      rubricStd = .error () := by
  rfl

/-- C1 amended: when the semantic-similarity collaborator is unavailable
because the embeddings service is not configured, or the configured
service's response carries fewer than two vectors (the source's
`if (!u || !e) return 0` destructuring guard), `rubricAggregate` returns a
complete `RubricResult` with the content pillar degraded to 0
(`details.semantic = 0`); but when a configured service's request fails
(network error or timeout) and both texts are non-empty, the error
propagates and aborts the aggregation. -/
theorem claim1_semantic_degradation (env : ScoringEnv) (E : EmbEnv)
    (text lang : String) (ms : List LtMatch) (expectedAnswer : String)
    (rubric : Rubric) :
    (E.call text expectedAnswer = .notConfigured →
      ∃ r, rubricAggregate env E text lang ms expectedAnswer rubric = .ok r ∧
        r.breakdown.content = 0 ∧ r.details.semantic = 0) ∧
    (∀ vs, E.call text expectedAnswer = .responded vs → vs.length < 2 →
      ∃ r, rubricAggregate env E text lang ms expectedAnswer rubric = .ok r ∧
        r.breakdown.content = 0 ∧ r.details.semantic = 0) ∧
    (E.call text expectedAnswer = .raised → expectedAnswer ≠ "" → text ≠ "" →
      rubricAggregate env E text lang ms expectedAnswer rubric = .error ()) := by
  refine ⟨?_, ?_, ?_⟩
  · intro hc
    have hsem : semanticSimilarity E text expectedAnswer = .ok 0 := by
      unfold semanticSimilarity
      split
      · rfl
      · rw [hc]
    unfold rubricAggregate
    rw [hsem]
    refine ⟨_, rfl, ?_, rfl⟩
    show (if expectedAnswer ≠ "" then (0 : ℤ) else 0) = 0
    split <;> rfl
  · intro vs hc hlen
    have hsem : semanticSimilarity E text expectedAnswer = .ok 0 := by
      unfold semanticSimilarity
      split
      · rfl
      · rw [hc]
        match vs, hlen with
        | [], _ => rfl
        | [u], _ => rfl
    unfold rubricAggregate
    rw [hsem]
    refine ⟨_, rfl, ?_, rfl⟩
    show (if expectedAnswer ≠ "" then (0 : ℤ) else 0) = 0
    split <;> rfl
  · intro hc hea htext
    have hsem : semanticSimilarity E text expectedAnswer = .error () := by
      unfold semanticSimilarity
      rw [if_neg (by simp [hea, htext]), hc]
    unfold rubricAggregate
    rw [hsem]

/-- Rule 1 preserves the points order and denominator equality when the
two texts have the same similarity outcome. -/
theorem step1Similarity_rel (C : Collab) (t1 t2 : String) (cfg : EvalCfg)
    (st1 st2 : EvalState)
    (hs : similarity100 C.cmp t1 (cfg.expectedAnswer.getD "") =
      similarity100 C.cmp t2 (cfg.expectedAnswer.getD ""))
    (hp : st1.points ≤ st2.points) (hm : st1.maxPoints = st2.maxPoints) :
    (step1Similarity C t1 cfg st1).points ≤ (step1Similarity C t2 cfg st2).points ∧
    (step1Similarity C t1 cfg st1).maxPoints =
      (step1Similarity C t2 cfg st2).maxPoints := by
  by_cases hg : truthyStr cfg.expectedAnswer = true
  · unfold step1Similarity
    rw [if_pos hg, if_pos hg]
    refine ⟨?_, ?_⟩
    · dsimp only
      rw [hs]
      exact add_le_add_right hp _
    · dsimp only
      rw [hm]
  · unfold step1Similarity
    rw [if_neg hg, if_neg hg]
    exact ⟨hp, hm⟩

/-- Rule 2 is monotone in the found count of the required keywords. -/
theorem step2All_rel (t1 t2 : String) (cfg : EvalCfg) (st1 st2 : EvalState)
    (hf : (countKeywords t1 cfg.keywords.all).found ≤
      (countKeywords t2 cfg.keywords.all).found)
    (hp : st1.points ≤ st2.points) (hm : st1.maxPoints = st2.maxPoints) :
    (step2All t1 cfg st1).points ≤ (step2All t2 cfg st2).points ∧
    (step2All t1 cfg st1).maxPoints = (step2All t2 cfg st2).maxPoints := by
  by_cases hg : cfg.keywords.all.length ≠ 0
  · unfold step2All
    rw [if_pos hg, if_pos hg]
    have htot1 : (countKeywords t1 cfg.keywords.all).total =
      cfg.keywords.all.length := rfl
    have htot2 : (countKeywords t2 cfg.keywords.all).total =
      cfg.keywords.all.length := rfl
    refine ⟨?_, ?_⟩
    · dsimp only
      rw [htot1, htot2, if_neg hg, if_neg hg]
      have hlen : (0 : ℤ) < (cfg.keywords.all.length : ℤ) := by
        exact_mod_cast Nat.pos_of_ne_zero hg
      refine add_le_add hp (jsRoundDiv_mono _ _ _ hlen ?_)
      have := Nat.mul_le_mul_right cfg.weights.all hf
      exact_mod_cast this
    · dsimp only
      rw [hm]
  · unfold step2All
    rw [if_neg hg, if_neg hg]
    exact ⟨hp, hm⟩

/-- Rule 3 preserves the relation when the optional-keyword outcomes are
equal. -/
theorem step3Any_rel (t1 t2 : String) (cfg : EvalCfg) (st1 st2 : EvalState)
    (he : countKeywords t1 cfg.keywords.any = countKeywords t2 cfg.keywords.any)
    (hp : st1.points ≤ st2.points) (hm : st1.maxPoints = st2.maxPoints) :
    (step3Any t1 cfg st1).points ≤ (step3Any t2 cfg st2).points ∧
    (step3Any t1 cfg st1).maxPoints = (step3Any t2 cfg st2).maxPoints := by
  by_cases hg : cfg.keywords.any.length ≠ 0
  · unfold step3Any
    rw [if_pos hg, if_pos hg]
    refine ⟨?_, ?_⟩
    · dsimp only
      rw [he]
      exact add_le_add_right hp _
    · dsimp only
      rw [hm]
  · unfold step3Any
    rw [if_neg hg, if_neg hg]
    exact ⟨hp, hm⟩

/-- The capped banned penalty is monotone: more accumulated points before
it still mean at least as many points after it. -/
theorem penalty_mono (p q c : ℤ) (h : p ≤ q) : p - min p c ≤ q - min q c := by
  rcases le_total p c with h1 | h1 <;> rcases le_total q c with h2 | h2 <;>
    simp [min_eq_left, min_eq_right, h1, h2] <;> omega

/-- Rule 4 preserves the relation when the banned-keyword outcomes are
equal. -/
theorem step4Banned_rel (t1 t2 : String) (cfg : EvalCfg) (st1 st2 : EvalState)
    (he : countKeywords t1 cfg.keywords.banned =
      countKeywords t2 cfg.keywords.banned)
    (hp : st1.points ≤ st2.points) (hm : st1.maxPoints = st2.maxPoints) :
    (step4Banned t1 cfg st1).points ≤ (step4Banned t2 cfg st2).points ∧
    (step4Banned t1 cfg st1).maxPoints = (step4Banned t2 cfg st2).maxPoints := by
  by_cases hg : cfg.keywords.banned.length ≠ 0
  · unfold step4Banned
    rw [if_pos hg, if_pos hg, he]
    by_cases hff : (countKeywords t2 cfg.keywords.banned).found > 0
    · rw [if_pos hff, if_pos hff]
      exact ⟨penalty_mono _ _ _ hp, hm⟩
    · rw [if_neg hff, if_neg hff]
      exact ⟨hp, hm⟩
  · unfold step4Banned
    rw [if_neg hg, if_neg hg]
    exact ⟨hp, hm⟩

/-- Rule 5 preserves the relation when the two regex-loop runs agree. -/
theorem step5Regex_rel (C : Collab) (t1 t2 : String) (cfg : EvalCfg)
    (st1 st2 st1b st2b : EvalState)
    (he : regexLoop C.compile t1 cfg.regex = regexLoop C.compile t2 cfg.regex)
    (hp : st1.points ≤ st2.points) (hm : st1.maxPoints = st2.maxPoints)
    (h1 : step5Regex C t1 cfg st1 = .ok st1b)
    (h2 : step5Regex C t2 cfg st2 = .ok st2b) :
    st1b.points ≤ st2b.points ∧ st1b.maxPoints = st2b.maxPoints := by
  unfold step5Regex at h1 h2
  by_cases hg : cfg.regex.length ≠ 0
  · rw [if_pos hg] at h1 h2
    rw [he] at h1
    cases hr : regexLoop C.compile t2 cfg.regex with
    | error e =>
      rw [hr] at h1
      cases h1
    | ok b =>
      rw [hr] at h1 h2
      cases h1
      cases h2
      refine ⟨?_, ?_⟩
      · dsimp only
        exact add_le_add_right hp _
      · dsimp only
        rw [hm]
  · rw [if_neg hg] at h1 h2
    cases h1
    cases h2
    exact ⟨hp, hm⟩

/-- Rule 6 preserves the relation when the two texts have the same word
count. -/
theorem step6Length_rel (t1 t2 : String) (cfg : EvalCfg) (st1 st2 : EvalState)
    (hw : (tokens t1).length = (tokens t2).length)
    (hp : st1.points ≤ st2.points) (hm : st1.maxPoints = st2.maxPoints) :
    (step6Length t1 cfg st1).points ≤ (step6Length t2 cfg st2).points ∧
    (step6Length t1 cfg st1).maxPoints = (step6Length t2 cfg st2).maxPoints := by
  unfold step6Length
  split
  · refine ⟨?_, ?_⟩
    · dsimp only
      rw [hw]
      exact add_le_add_right hp _
    · dsimp only
      rw [hm]
  · exact ⟨hp, hm⟩

/-- Rule 7 preserves the relation when the two texts have the same verb
outcome. -/
theorem step7Verb_rel (C : Collab) (t1 t2 : String) (cfg : EvalCfg)
    (lang : String) (st1 st2 : EvalState)
    (hv : hasVerb C.nlpVerbs t1 lang = hasVerb C.nlpVerbs t2 lang)
    (hp : st1.points ≤ st2.points) (hm : st1.maxPoints = st2.maxPoints) :
    (step7Verb C t1 cfg lang st1).points ≤ (step7Verb C t2 cfg lang st2).points ∧
    (step7Verb C t1 cfg lang st1).maxPoints =
      (step7Verb C t2 cfg lang st2).maxPoints := by
  unfold step7Verb
  split
  · refine ⟨?_, ?_⟩
    · dsimp only
      rw [hv]
      exact add_le_add_right hp _
    · dsimp only
      rw [hm]
  · exact ⟨hp, hm⟩

/-- The final clamp formula is monotone in the points for a fixed
denominator. -/
theorem contentScoreOf_mono (st1 st2 : EvalState)
    (hp : st1.points ≤ st2.points) (hm : st1.maxPoints = st2.maxPoints) :
    contentScoreOf st1 ≤ contentScoreOf st2 := by
  unfold contentScoreOf
  rw [hm]
  split
  · next hpos =>
    have hden : (0 : ℤ) < (st2.maxPoints : ℤ) := by exact_mod_cast hpos
    refine max_le_max (le_refl 0) (min_le_min (le_refl 100) ?_)
    exact jsRoundDiv_mono _ _ _ hden (mul_le_mul_of_nonneg_right hp (by norm_num))
  · exact le_refl 0

/-- Inverting a successful `evaluateAnswer` to the underlying pipeline
state: the regex step succeeded on the rule 1–4 prefix and the content
score is the final state's `contentScoreOf`. -/
theorem evaluateAnswer_ok_state (C : Collab) (u : String) (cfg : EvalCfg)
    (lang : String) (res : ContentEvalResult)
    (h : evaluateAnswer C u cfg lang = .ok res) :
    ∃ st5, step5Regex C u cfg (pre4 C u cfg) = .ok st5 ∧
      res.contentScore =
        contentScoreOf (step7Verb C u cfg lang (step6Length u cfg st5)) := by
  unfold evaluateAnswer at h
  cases hes : evalState C u cfg lang with
  | error e =>
    rw [hes] at h
    cases h
  | ok st =>
    rw [hes] at h
    cases h
    unfold evalState at hes
    cases h5 : step5Regex C u cfg (pre4 C u cfg) with
    | error e =>
      rw [h5] at hes
      cases hes
    | ok st5 =>
      rw [h5] at hes
      cases hes
      exact ⟨st5, rfl, rfl⟩

/-- C6: with a fixed configuration whose required-keyword list is
non-empty, a second text that matches at least as many of the required
keywords while every other rule outcome is unchanged (similarity, optional
and banned keyword counts, regex run, word count, verb detection) never
receives a lower content score. -/
theorem claim6_monotone_all_keywords (C : Collab) (t1 t2 : String)
    (cfg : EvalCfg) (lang : String) (r1 r2 : ContentEvalResult)
    (hall : cfg.keywords.all.length ≠ 0)
    (hf : (countKeywords t1 cfg.keywords.all).found ≤
      (countKeywords t2 cfg.keywords.all).found)
    (hsim : similarity100 C.cmp t1 (cfg.expectedAnswer.getD "") =
      similarity100 C.cmp t2 (cfg.expectedAnswer.getD ""))
    (hany : countKeywords t1 cfg.keywords.any = countKeywords t2 cfg.keywords.any)
    (hban : countKeywords t1 cfg.keywords.banned =
      countKeywords t2 cfg.keywords.banned)
    (hreg : regexLoop C.compile t1 cfg.regex = regexLoop C.compile t2 cfg.regex)
    (hlen : (tokens t1).length = (tokens t2).length)
    (hverb : hasVerb C.nlpVerbs t1 lang = hasVerb C.nlpVerbs t2 lang)
    (h1 : evaluateAnswer C t1 cfg lang = .ok r1)
    (h2 : evaluateAnswer C t2 cfg lang = .ok r2) :
    r1.contentScore ≤ r2.contentScore := by
  obtain ⟨st5a, h5a, hca⟩ := evaluateAnswer_ok_state C t1 cfg lang r1 h1
  obtain ⟨st5b, h5b, hcb⟩ := evaluateAnswer_ok_state C t2 cfg lang r2 h2
  have rel1 := step1Similarity_rel C t1 t2 cfg initState initState hsim
    (le_refl _) rfl
  have rel2 := step2All_rel t1 t2 cfg _ _ hf rel1.1 rel1.2
  have rel3 := step3Any_rel t1 t2 cfg _ _ hany rel2.1 rel2.2
  have rel4 := step4Banned_rel t1 t2 cfg _ _ hban rel3.1 rel3.2
  have rel5 := step5Regex_rel C t1 t2 cfg _ _ st5a st5b hreg rel4.1 rel4.2 h5a h5b
  have rel6 := step6Length_rel t1 t2 cfg st5a st5b hlen rel5.1 rel5.2
  have rel7 := step7Verb_rel C t1 t2 cfg lang _ _ hverb rel6.1 rel6.2
  rw [hca, hcb]
  exact contentScoreOf_mono _ _ rel7.1 rel7.2

/-- C6 witness: the monotonicity instance at the concrete configuration
`all = ["cat","dog"]` on `"the dog sat pig"` (one keyword) versus
`"the cat dog sat"` (two keywords), both four words long. -/
theorem claim6_monotone_all_keywords_witness :
    (ContentEvalResult.mk 52 false [Reason.keywordsAll 1 2 (some 50) 25 13]).contentScore ≤
    (ContentEvalResult.mk 100 true [Reason.keywordsAll 2 2 (some 100) 25 25]).contentScore :=
  claim6_monotone_all_keywords collabW "the dog sat pig" "the cat dog sat"
    { emptyCfg with keywords := { all := ["cat", "dog"], any := [], banned := [] } }
    "en"
    (ContentEvalResult.mk 52 false [Reason.keywordsAll 1 2 (some 50) 25 13])
    (ContentEvalResult.mk 100 true [Reason.keywordsAll 2 2 (some 100) 25 25])
    (by decide) (by decide) (by decide) (by decide) (by decide) (by decide)
    (by decide) (by decide) (by decide) (by decide)

/-- C2: the content score `evaluateAnswer` returns is `contentScoreOf` of
the pipeline state, which equals
`clamp(round(points/maxPoints × 100), 0, 100)` when `maxPoints > 0` (at
least one active rule) and `0` otherwise, and always lies in `[0, 100]`. -/
theorem claim2_contentScore_formula_and_range (C : Collab) (userText : String)
    (cfg : EvalCfg) (lang : String) (st : EvalState) :
    (evalState C userText cfg lang = .ok st →
      evaluateAnswer C userText cfg lang =
        .ok { contentScore := contentScoreOf st
              isCorrect := isCorrectOf cfg st.reasons
              reasons := st.reasons }) ∧
    contentScoreOf st =
      (if 0 < st.maxPoints then
        max 0 (min 100 (round ((st.points : ℚ) / (st.maxPoints : ℚ) * 100)))
      else 0) ∧
    0 ≤ contentScoreOf st ∧ contentScoreOf st ≤ 100 := by
  refine ⟨?_, ?_, ?_, ?_⟩
  · intro h
    unfold evaluateAnswer
    rw [h]
  · unfold contentScoreOf
    split
    · next hm =>
      have hm2 : (0 : ℤ) < (st.maxPoints : ℤ) := by exact_mod_cast hm
      rw [jsRoundDiv_eq _ _ hm2]
      congr 3
      push_cast
      rw [div_mul_eq_mul_div]
    · rfl
  · unfold contentScoreOf
    split
    · exact le_max_left 0 _
    · exact le_refl 0
  · unfold contentScoreOf
    split
    · exact max_le (by norm_num) (min_le_left _ _)
    · norm_num

/-- C7: with the empty configuration the evaluation returns content score
0 and an empty reasons sequence, for every text and language tag. -/
theorem claim7_empty_config (C : Collab) (userText lang : String) :
    ∃ res, evaluateAnswer C userText emptyCfg lang = .ok res ∧
      res.contentScore = 0 ∧ res.reasons = [] :=
  ⟨{ contentScore := 0, isCorrect := true, reasons := [] }, rfl, rfl, rfl⟩

/-- C10: with the empty configuration (no expected answer, no active
rules) every correctness condition is vacuously satisfied, so
`evaluateAnswer` returns `isCorrect = true` even though the same call's
content score is 0. -/
theorem claim10_empty_config_isCorrect (C : Collab) (userText lang : String) :
    ∃ res, evaluateAnswer C userText emptyCfg lang = .ok res ∧
      res.isCorrect = true ∧ res.contentScore = 0 :=
  ⟨{ contentScore := 0, isCorrect := true, reasons := [] }, rfl, rfl, rfl⟩

/-- C8: `countKeywords` counts the non-empty keywords whose normalized
form is a substring of the normalized text, reports the raw list length,
`pct = round(found/total × 100)` (`null` for an empty list), and on the
spec's example returns `{found: 1, total: 2, pct: 50}`. -/
theorem claim8_countKeywords (text : String) (list : List String) :
    (countKeywords text list).found =
        (list.filter (fun k => k ≠ "" && occursIn (norm text) (norm k))).length ∧
    (countKeywords text list).total = list.length ∧
    (countKeywords text list).pct =
      (if list.length = 0 then none
       else some (round (((countKeywords text list).found : ℚ) /
         (list.length : ℚ) * 100))) ∧
    countKeywords "the cat sat" ["cat", "dog"] =
      { found := 1, total := 2, pct := some 50 } := by
  refine ⟨rfl, rfl, ?_, by decide⟩
  by_cases h : list.length = 0
  · show (if list.length = 0 then none else _) = _
    rw [if_pos h, if_pos h]
  · have hpos : (0 : ℤ) < (list.length : ℤ) := by
      exact_mod_cast Nat.pos_of_ne_zero h
    show (if list.length = 0 then none
          else some (jsRoundDiv ((countKeywords text list).found * 100)
            (list.length : ℤ))) = _
    rw [if_neg h, if_neg h, jsRoundDiv_eq _ _ hpos]
    congr 2
    push_cast
    rw [div_mul_eq_mul_div]

/-- C9: the lexis metric's repetition penalty is
`min(40, repeatedCount × 10)` over the distinct tokens occurring at least
four times, `repeatedTop` lists at most five such tokens, and
`lexisScore = max(0, ttrScore − penalty)`. -/
theorem claim9_lexis_penalty (text lang : String) :
    (lexisMetrics text lang).lexisScore =
      max 0 ((lexisMetrics text lang).ttrScore -
        min 40 ((((distinctKeys (lexTokens text)).filter
            (fun w => countOcc (lexTokens text) w ≥ 4)).length : ℤ) * 10)) ∧
    (lexisMetrics text lang).repeatedTop.length ≤ 5 ∧
    ∀ w ∈ (lexisMetrics text lang).repeatedTop,
      countOcc (lexTokens text) w ≥ 4 := by
  refine ⟨?_, ?_, ?_⟩
  · show max 0 _ = max 0 _
    congr 2
    have ht := List.length_take 5 ((distinctKeys (lexTokens text)).filter
      (fun w => countOcc (lexTokens text) w ≥ 4))
    generalize hl : ((distinctKeys (lexTokens text)).filter
      (fun w => countOcc (lexTokens text) w ≥ 4)).length = n at ht
    rw [ht] at *
    omega
  · show (List.take 5 _).length ≤ 5
    rw [List.length_take]
    exact min_le_left _ _
  · intro w hw
    have h1 : w ∈ (distinctKeys (lexTokens text)).filter
        (fun w => countOcc (lexTokens text) w ≥ 4) :=
      List.mem_of_mem_take hw
    have h2 := List.mem_filter.mp h1
    exact of_decide_eq_true h2.2

end Grader
